import Mathlib

/-!
Verification of the SEC filing acquisition and extraction pipeline
(`app/scrapers/sec_scraper.py`) against its specification.

The Python code is shallowly embedded: each extraction routine becomes an
executable Lean function over `String` / `List Char`.  The regular-expression
searches of the source are embedded through a small continuation-passing
matcher whose combinators reproduce the semantics of the Python `re` engine
on the concrete patterns used by the code (leftmost starting position,
greedy quantifiers with backtracking, case folding where `re.IGNORECASE` is
passed).  Python float values produced by `float(...)` on matched decimal
literals are modelled as exact decimal rationals (`Rat`); all the matched
literals are unsigned decimal digit strings, so order comparisons against 0
and 100 agree with the float semantics on every input considered here.
Whitespace classes model the ASCII whitespace characters (the inputs in
scope are ASCII).
-/

/-- ASCII whitespace, the characters matched by the regex class used by the
source patterns on ASCII input. -/
def isWs (c : Char) : Bool :=
  c = ' ' || c = '\t' || c = '\n' || c = '\r' || c = '\x0b' || c = '\x0c'

/-- Greedy Kleene star over a character class, with full backtracking:
longer consumptions are attempted before shorter ones, and the continuation
receives the remaining input. -/
def matchMany (p : Char → Bool) : List Char → (List Char → Option String) → Option String
  | [], k => k []
  | c :: rest, k =>
    if p c then
      match matchMany p rest k with
      | some v => some v
      | none => k (c :: rest)
    else k (c :: rest)

/-- Greedy plus over a character class: one mandatory character, then
`matchMany`. -/
def matchPlus (p : Char → Bool) : List Char → (List Char → Option String) → Option String
  | [], _ => none
  | c :: rest, k => if p c then matchMany p rest k else none

/-- A single mandatory literal character. -/
def matchChar (c : Char) : List Char → (List Char → Option String) → Option String
  | [], _ => none
  | x :: rest, k => if x = c then k rest else none

/-- A greedy optional literal character (the regex `c?`): consuming the
character is attempted before not consuming it. -/
def matchOptChar (c : Char) : List Char → (List Char → Option String) → Option String
  | [], k => k []
  | x :: rest, k =>
    if x = c then
      match k rest with
      | some v => some v
      | none => k (x :: rest)
    else k (x :: rest)

/-- A case-insensitive literal string (ASCII case folding, as applied by
`re.IGNORECASE` to the ASCII literals of the source patterns). -/
def matchLitCI : List Char → List Char → (List Char → Option String) → Option String
  | [], cs, k => k cs
  | _ :: _, [], _ => none
  | l :: ls, c :: cs, k =>
    if c.toLower = l.toLower then matchLitCI ls cs k else none

/-- A case-sensitive literal string. -/
def matchLitCS : List Char → List Char → (List Char → Option String) → Option String
  | [], cs, k => k cs
  | _ :: _, [], _ => none
  | l :: ls, c :: cs, k => if c = l then matchLitCS ls cs k else none

/-- Exactly `n` characters of class `p`; returns the consumed characters and
the rest. -/
def tryTake : Nat → (Char → Bool) → List Char → Option (List Char × List Char)
  | 0, _, cs => some ([], cs)
  | _ + 1, _, [] => none
  | n + 1, p, c :: cs =>
    if p c then
      match tryTake n p cs with
      | some (t, r) => some (c :: t, r)
      | none => none
    else none

/-- The regex `\d{1,3}` (greedy: three digits are attempted before two,
before one). -/
def matchD13 (cs : List Char) (k : List Char → Option String) : Option String :=
  match (match tryTake 3 Char.isDigit cs with
         | some (_, r) => k r
         | none => none) with
  | some v => some v
  | none =>
    match (match tryTake 2 Char.isDigit cs with
           | some (_, r) => k r
           | none => none) with
    | some v => some v
    | none =>
      match tryTake 1 Char.isDigit cs with
      | some (_, r) => k r
      | none => none

/-- The regex `(?:,\d{3})*` (greedy with backtracking). -/
def starComma3 : List Char → (List Char → Option String) → Option String
  | ',' :: a :: b :: c :: rest, k =>
    if a.isDigit && b.isDigit && c.isDigit then
      match starComma3 rest k with
      | some v => some v
      | none => k (',' :: a :: b :: c :: rest)
    else k (',' :: a :: b :: c :: rest)
  | cs, k => k cs

/-- The portion of the input consumed between two cursor positions; used to
recover a capture group.  The second list is always a suffix of the first. -/
def grab (cs rest : List Char) : String :=
  String.mk (cs.take (cs.length - rest.length))

/-- `re.search` semantics: the pattern attempt is applied at every starting
position from the left; the first position with a match wins. -/
def reSearch (att : List Char → Option String) : List Char → Option String
  | [] => att []
  | c :: rest =>
    match att (c :: rest) with
    | some v => some v
    | none => reSearch att rest

/-- The pattern attempt for `(\d+\.?\d*)\s*%` at a fixed starting position
(group 1 is returned). -/
def attPercentSym (cs : List Char) : Option String :=
  matchPlus Char.isDigit cs fun r1 =>
  matchOptChar '.' r1 fun r2 =>
  matchMany Char.isDigit r2 fun r3 =>
  matchMany isWs r3 fun r4 =>
  matchChar '%' r4 fun _ =>
  some (grab cs r3)

/-- The pattern attempt for `(\d+\.?\d*)\s*percent` (IGNORECASE) at a fixed
starting position. -/
def attPercentWord (cs : List Char) : Option String :=
  matchPlus Char.isDigit cs fun r1 =>
  matchOptChar '.' r1 fun r2 =>
  matchMany Char.isDigit r2 fun r3 =>
  matchMany isWs r3 fun r4 =>
  matchLitCI "percent".data r4 fun _ =>
  some (grab cs r3)

/-- The pattern attempt for `(\d{1,3}(?:,\d{3})*)\s*shares` (IGNORECASE) at
a fixed starting position. -/
def attSharesGrouped (cs : List Char) : Option String :=
  matchD13 cs fun r1 =>
  starComma3 r1 fun r2 =>
  matchMany isWs r2 fun r3 =>
  matchLitCI "shares".data r3 fun _ =>
  some (grab cs r2)

/-- The pattern attempt for `(\d+)\s*shares` (IGNORECASE) at a fixed
starting position. -/
def attSharesPlain (cs : List Char) : Option String :=
  matchPlus Char.isDigit cs fun r1 =>
  matchMany isWs r1 fun r2 =>
  matchLitCI "shares".data r2 fun _ =>
  some (grab cs r1)

/-- The pattern attempt for `Item\s*4\.?\s*Purpose[^:]*:?\s*([^<]+)`
(IGNORECASE, DOTALL) at a fixed starting position. -/
def attPurpose1 (cs : List Char) : Option String :=
  matchLitCI "item".data cs fun r1 =>
  matchMany isWs r1 fun r2 =>
  matchChar '4' r2 fun r3 =>
  matchOptChar '.' r3 fun r4 =>
  matchMany isWs r4 fun r5 =>
  matchLitCI "purpose".data r5 fun r6 =>
  matchMany (fun c => !(c = ':')) r6 fun r7 =>
  matchOptChar ':' r7 fun r8 =>
  matchMany isWs r8 fun r9 =>
  matchPlus (fun c => !(c = '<')) r9 fun r10 =>
  some (grab r9 r10)

/-- The pattern attempt for `Purpose[^:]*:?\s*([^<]+)` (IGNORECASE, DOTALL)
at a fixed starting position. -/
def attPurpose2 (cs : List Char) : Option String :=
  matchLitCI "purpose".data cs fun r1 =>
  matchMany (fun c => !(c = ':')) r1 fun r2 =>
  matchOptChar ':' r2 fun r3 =>
  matchMany isWs r3 fun r4 =>
  matchPlus (fun c => !(c = '<')) r4 fun r5 =>
  some (grab r4 r5)

/-- The pattern attempt for `Item\s*4[^:]*([^<]+)` (IGNORECASE, DOTALL) at a
fixed starting position. -/
def attPurpose3 (cs : List Char) : Option String :=
  matchLitCI "item".data cs fun r1 =>
  matchMany isWs r1 fun r2 =>
  matchChar '4' r2 fun r3 =>
  matchMany (fun c => !(c = ':')) r3 fun r4 =>
  matchPlus (fun c => !(c = '<')) r4 fun r5 =>
  some (grab r4 r5)

/-- Python `str.strip()` on ASCII input: leading and trailing whitespace is
removed. -/
def pyStrip (s : String) : String :=
  String.mk (((s.data.dropWhile isWs).reverse.dropWhile isWs).reverse)

/-- Python `str.lower()` on ASCII input. -/
def pyLower (s : String) : String :=
  String.mk (s.data.map Char.toLower)

/-- Whether `l` starts with the first argument (exact characters). -/
def startsList : List Char → List Char → Bool
  | [], _ => true
  | _ :: _, [] => false
  | p :: ps, c :: cs => p = c && startsList ps cs

/-- Whether `needle` occurs as a contiguous substring of `hay` (Python
`needle in hay`). -/
def containsSub (needle : List Char) : List Char → Bool
  | [] => needle.isEmpty
  | c :: rest => startsList needle (c :: rest) || containsSub needle rest

/-- Numeric value of a string of decimal digits. -/
def digitsToNat (l : List Char) : Nat :=
  l.foldl (fun n c => 10 * n + (c.toNat - '0'.toNat)) 0

/-- Value of Python `float(s)` for the unsigned decimal literals captured by
the numeric patterns (`\d+`, optionally followed by a point and `\d*`),
modelled as an exact rational. -/
def pyFloatOfNumString (s : String) : Rat :=
  let intPart := s.data.takeWhile Char.isDigit
  let rest := s.data.dropWhile Char.isDigit
  match rest with
  | '.' :: frac =>
    let fracDigits := frac.takeWhile Char.isDigit
    (digitsToNat intPart : Rat) + (digitsToNat fracDigits : Rat) / ((10 : Rat) ^ fracDigits.length)
  | _ => (digitsToNat intPart : Rat)

/-- Value of Python `int(s)` for strings of decimal digits. -/
def pyIntOfDigits (s : String) : Nat :=
  digitsToNat s.data

/-- Python `s.replace(",", "")`. -/
def stripCommas (s : String) : String :=
  String.mk (s.data.filter (fun c => !(c = ',')))

/-- The result dictionary of `_analyze_filing_text`, as a record.  The six
fields are the six keys the function always creates; `investment_intent` is
created and never assigned by the source, so it is always absent. -/
structure Analysis where
  ownership_percent : Option Rat
  shares_owned : Option Nat
  purpose : Option String
  investment_intent : Option String
  activist_language : Bool
  control_intent : Bool
deriving DecidableEq, Repr

/-- The activist keyword list of `_analyze_filing_text`. -/
def activist_keywords : List String :=
  ["strategic alternatives", "board representation", "governance",
   "maximize value", "operational improvements", "management changes"]

/-- The control keyword list of `_analyze_filing_text`. -/
def control_keywords : List String :=
  ["control", "acquire", "merger", "takeover", "proxy"]

/-- `SECRealTimeScraper._extract_purpose_section`: the three purpose heading
patterns are attempted in order and the first match has its group 1
stripped. -/
def extractPurposeSection (content : String) : Option String :=
  (match reSearch attPurpose1 content.data with
   | some v => some v
   | none =>
     match reSearch attPurpose2 content.data with
     | some v => some v
     | none => reSearch attPurpose3 content.data).map pyStrip

/-- `SECRealTimeScraper._analyze_filing_text`.  Field by field this mirrors
the source: the ownership percentage and share count are each taken from the
first matching pattern of their ordered pattern lists; the purpose section,
when found and non-empty (Python truthiness of the stripped group), is
truncated to 500 characters, and the keyword signals are tested against the
untruncated lowercased section. -/
def analyzeFilingText (content : String) : Analysis :=
  let ownership :=
    (match reSearch attPercentSym content.data with
     | some v => some v
     | none => reSearch attPercentWord content.data).map pyFloatOfNumString
  let shares :=
    (match reSearch attSharesGrouped content.data with
     | some v => some v
     | none => reSearch attSharesPlain content.data).map
      (fun s => pyIntOfDigits (stripCommas s))
  match extractPurposeSection content with
  | some p =>
    if p = "" then
      { ownership_percent := ownership, shares_owned := shares,
        purpose := none, investment_intent := none,
        activist_language := false, control_intent := false }
    else
      { ownership_percent := ownership, shares_owned := shares,
        purpose := some (String.mk (p.data.take 500)), investment_intent := none,
        activist_language :=
          activist_keywords.any (fun kw => containsSub kw.data (pyLower p).data),
        control_intent :=
          control_keywords.any (fun kw => containsSub kw.data (pyLower p).data) }
  | none =>
    { ownership_percent := ownership, shares_owned := shares,
      purpose := none, investment_intent := none,
      activist_language := false, control_intent := false }

/-- A calendar date, the projection of the Python `datetime` values built by
the scraper (only the date components are ever set by `_parse_date`). -/
structure PDate where
  year : Nat
  month : Nat
  day : Nat
deriving DecidableEq, Repr

/-- Gregorian leap year, as used by Python `datetime` validation. -/
def isLeapYear (y : Nat) : Bool :=
  (y % 4 = 0 && !(y % 100 = 0)) || y % 400 = 0

/-- Number of days of a month, as used by Python `datetime` validation. -/
def daysInMonth (y m : Nat) : Nat :=
  if m = 2 then (if isLeapYear y then 29 else 28)
  else if m = 4 || m = 6 || m = 9 || m = 11 then 30
  else 31

/-- The range checks performed by the `datetime` constructor. -/
def validDate (y m d : Nat) : Bool :=
  1 ≤ y && y ≤ 9999 && 1 ≤ m && m ≤ 12 && 1 ≤ d && d ≤ daysInMonth y m

/-- Numeric value of one decimal digit character. -/
def digitVal (c : Char) : Nat :=
  c.toNat - '0'.toNat

/-- The strptime directive `%Y`: exactly four decimal digits. -/
def parseYear4 : List Char → Option (Nat × List Char)
  | a :: b :: c :: d :: rest =>
    if a.isDigit && b.isDigit && c.isDigit && d.isDigit then
      some (digitsToNat [a, b, c, d], rest)
    else none
  | _ => none

/-- The strptime directive `%m`, whose regex alternation accepts 10-12,
01-09, then a bare 1-9, in that order. -/
def parseMonth : List Char → Option (Nat × List Char)
  | [] => none
  | [a] => if a.isDigit && !(a = '0') then some (digitVal a, []) else none
  | a :: b :: rest =>
    if a = '1' && (b = '0' || b = '1' || b = '2') then some (10 + digitVal b, rest)
    else if a = '0' && b.isDigit && !(b = '0') then some (digitVal b, rest)
    else if a.isDigit && !(a = '0') then some (digitVal a, b :: rest)
    else none

/-- The strptime directive `%d`, whose regex alternation accepts 30-31,
10-29, 01-09, then a bare 1-9, in that order. -/
def parseDay : List Char → Option (Nat × List Char)
  | [] => none
  | [a] => if a.isDigit && !(a = '0') then some (digitVal a, []) else none
  | a :: b :: rest =>
    if a = '3' && (b = '0' || b = '1') then some (30 + digitVal b, rest)
    else if (a = '1' || a = '2') && b.isDigit then some (10 * digitVal a + digitVal b, rest)
    else if a = '0' && b.isDigit && !(b = '0') then some (digitVal b, rest)
    else if a.isDigit && !(a = '0') then some (digitVal a, b :: rest)
    else none

/-- `datetime.strptime(s, "%Y-%m-%d")`: the directives in sequence, the
whole string consumed, and the date range-checked by the constructor. -/
def strptimeISO (s : String) : Option PDate :=
  match parseYear4 s.data with
  | some (y, r1) =>
    match r1 with
    | '-' :: r2 =>
      match parseMonth r2 with
      | some (m, r3) =>
        match r3 with
        | '-' :: r4 =>
          match parseDay r4 with
          | some (d, r5) =>
            if r5 = [] && validDate y m d then some ⟨y, m, d⟩ else none
          | none => none
        | _ => none
      | none => none
    | _ => none
  | none => none

/-- `datetime.strptime(s, "%m/%d/%Y")`. -/
def strptimeUS (s : String) : Option PDate :=
  match parseMonth s.data with
  | some (m, r1) =>
    match r1 with
    | '/' :: r2 =>
      match parseDay r2 with
      | some (d, r3) =>
        match r3 with
        | '/' :: r4 =>
          match parseYear4 r4 with
          | some (y, r5) =>
            if r5 = [] && validDate y m d then some ⟨y, m, d⟩ else none
          | none => none
        | _ => none
      | none => none
    | _ => none
  | none => none

/-- `SECRealTimeScraper._parse_date`: the ISO format is attempted first, the
US format on `ValueError`, and `None` is returned when both fail. -/
def parse_date (s : String) : Option PDate :=
  match strptimeISO s with
  | some d => some d
  | none => strptimeUS s

/-- The pattern attempt for `/(\d{10}-\d{2}-\d{6})/` at a fixed starting
position (the accession-number search of `_extract_filing_data`); the
returned group is the hyphenated run between the two slashes. -/
def attAcc (cs : List Char) : Option String :=
  matchChar '/' cs fun r1 =>
    match tryTake 10 Char.isDigit r1 with
    | some (d10, r2) =>
      matchChar '-' r2 fun r3 =>
        match tryTake 2 Char.isDigit r3 with
        | some (d2, r4) =>
          matchChar '-' r4 fun r5 =>
            match tryTake 6 Char.isDigit r5 with
            | some (d6, r6) =>
              matchChar '/' r6 fun _ =>
                some (String.mk (d10 ++ '-' :: d2 ++ '-' :: d6))
            | none => none
        | none => none
    | none => none

/-- Whether `l` has length `n` and consists of decimal digits. -/
def allDigitsLen (n : Nat) (l : List Char) : Bool :=
  l.length = n && l.all Char.isDigit

/-- The canonical registry accession shape: ten digits, a hyphen, two
digits, a hyphen, six digits. -/
def isAccession (s : String) : Bool :=
  allDigitsLen 10 (s.data.take 10) &&
  (match s.data.drop 10 with
   | '-' :: m =>
     allDigitsLen 2 (m.take 2) &&
     (match m.drop 2 with
      | '-' :: d => allDigitsLen 6 d
      | _ => false)
   | _ => false)

/-- One syndication-feed entry, as consumed by `_extract_filing_data`: the
optional title element text, the entry text, the optional updated element
text, and the optional link href. -/
structure Entry where
  title : Option String
  text : String
  updated : Option String
  link : Option String
deriving DecidableEq, Repr

/-- The dictionary built by `_extract_filing_data`.  The `filing_date` field
holds the normalized ISO-8601 text handed to `datetime.fromisoformat` (the
instant itself is not inspected by any claim; a text the parser would reject
makes the source drop the whole entry, so the embedding emits a superset of
the entries the source emits, which only strengthens the universally
quantified theorems below). The `url` field holds the link href (the source
stores `urljoin(base_url, href)`; no claim inspects the joined value). -/
structure FeedFiling where
  form_type : String
  company_name : String
  cik : Option String
  filing_date : Option String
  accession_number : Option String
  url : Option String
  source : String
deriving DecidableEq, Repr

/-- Python `s.split(sep)[0]` for a non-empty separator: the text before the
first occurrence of the separator, or the whole string. -/
def beforeSub (sep : List Char) : List Char → List Char
  | [] => []
  | c :: rest =>
    if startsList sep (c :: rest) then [] else c :: beforeSub sep rest

/-- The pattern attempt for `CIK: (\d+)` (case-sensitive) at a fixed
starting position. -/
def attCIK (cs : List Char) : Option String :=
  matchLitCS "CIK: ".data cs fun r1 =>
  matchPlus Char.isDigit r1 fun r2 =>
  some (grab r1 r2)

/-- Python `s.replace("Z", "+00:00")`. -/
def pyReplaceZ : List Char → List Char
  | [] => []
  | c :: rest =>
    if c = 'Z' then '+' :: '0' :: '0' :: ':' :: '0' :: '0' :: pyReplaceZ rest
    else c :: pyReplaceZ rest

/-- `SECRealTimeScraper._extract_filing_data` on one feed entry. -/
def extractFilingData (entry : Entry) (formType : String) : FeedFiling :=
  let companyName :=
    match entry.title with
    | some t => String.mk (beforeSub " - ".data t.data)
    | none => "Unknown"
  let cik := if entry.text = "" then none else reSearch attCIK entry.text.data
  let filingDate := entry.updated.map (fun u => String.mk (pyReplaceZ u.data))
  match entry.link with
  | some href =>
    if href = "" then
      { form_type := formType, company_name := companyName, cik := cik,
        filing_date := filingDate, accession_number := none, url := none,
        source := "SEC_EDGAR_REALTIME" }
    else
      { form_type := formType, company_name := companyName, cik := cik,
        filing_date := filingDate,
        accession_number := reSearch attAcc href.data,
        url := some href,
        source := "SEC_EDGAR_REALTIME" }
  | none =>
    { form_type := formType, company_name := companyName, cik := cik,
      filing_date := filingDate, accession_number := none, url := none,
      source := "SEC_EDGAR_REALTIME" }

/-- `SECRealTimeScraper._parse_edgar_response`: every feed entry is turned
into a reference (the typed embedding has no attribute errors, so the
per-entry exception path never fires). -/
def parseEdgarResponse (entries : List Entry) (formType : String) : List FeedFiling :=
  entries.map (fun e => extractFilingData e formType)

/-- One table cell: its text and the href of its first anchor, when any. -/
structure Cell where
  text : String
  linkHref : Option String
deriving DecidableEq, Repr

/-- The dictionary built for one qualifying row of the company-filings
table.  The `url` field holds the anchor href of cell 1 (the source stores
`urljoin(base_url, href)`; no claim inspects the joined value). -/
structure CompanyFiling where
  form_type : String
  cik : String
  filing_date : Option PDate
  accession_number : String
  description : String
  url : Option String
  source : String
deriving DecidableEq, Repr

/-- The row handling of `_parse_company_filings_response`: a row with fewer
than five cells is skipped; otherwise the date, accession text and
description are read from cells 3, 4 and 2, each stripped, and the optional
document link from cell 1. -/
def parseCompanyRow (formType cik : String) (cells : List Cell) : Option CompanyFiling :=
  if h : 5 ≤ cells.length then
    some { form_type := formType, cik := cik,
           filing_date := parse_date (pyStrip (cells.get ⟨3, by omega⟩).text),
           accession_number := pyStrip (cells.get ⟨4, by omega⟩).text,
           description := pyStrip (cells.get ⟨2, by omega⟩).text,
           url := (cells.get ⟨1, by omega⟩).linkHref,
           source := "SEC_EDGAR_COMPANY_SPECIFIC" }
  else none

/-- `SECRealTimeScraper._parse_company_filings_response`: for each matched
table the header row is skipped and every remaining qualifying row yields a
reference, in source order. -/
def parseCompanyFilingsResponse (formType cik : String)
    (tables : List (List (List Cell))) : List CompanyFiling :=
  tables.flatMap (fun table => (table.drop 1).filterMap (parseCompanyRow formType cik))

/-- The filings carried by a successful fetch, or nothing on a failure. -/
def okFilings {α : Type} : Except String (List α) → List α
  | Except.ok l => l
  | Except.error _ => []

/-- `SECRealTimeScraper._scrape_form_type`, parameterized by the outcome of
the network fetch plus parse for a form type (`requests` exceptions become
`Except.error`).  The failure branch models the recorded error report of the
source (`print("Error fetching {form_type} filings: {e}")`): the pair is the
gathered references together with the per-form-type error list. -/
def scrapeFormType {α : Type} (fetch : String → Except String (List α))
    (formType : String) : List α × List String :=
  match fetch formType with
  | Except.ok l => (l, [])
  | Except.error e => ([], ["Error fetching " ++ formType ++ " filings: " ++ e])

/-- `SECRealTimeScraper._scrape_company_form_type`, analogously. -/
def scrapeCompanyFormType {α : Type} (fetch : String → String → Except String (List α))
    (cik formType : String) : List α × List String :=
  match fetch cik formType with
  | Except.ok l => (l, [])
  | Except.error e =>
    ([], ["Error fetching " ++ formType ++ " filings for CIK " ++ cik ++ ": " ++ e])

/-- The orchestration loop shared by `get_recent_filings` and
`get_company_filings`: each form type is attempted once, in the order given;
references and recorded failures are accumulated; a failure never aborts the
remaining form types. -/
def scanFormTypes {α : Type} (scrape : String → List α × List String)
    (formTypes : List String) : List α × List String :=
  formTypes.foldl (fun acc ft => (acc.1 ++ (scrape ft).1, acc.2 ++ (scrape ft).2)) ([], [])

/-- `SECRealTimeScraper.get_recent_filings` (the broad scan), parameterized
by the per-form-type fetch outcome.  Passing `none` models omitting the
`form_types` argument. -/
def get_recent_filings {α : Type} (fetch : String → Except String (List α))
    (formTypes : Option (List String)) : List α × List String :=
  scanFormTypes (scrapeFormType fetch) (formTypes.getD ["13D", "13G", "13G/A"])

/-- `SECRealTimeScraper.get_company_filings`, analogously. -/
def get_company_filings {α : Type} (fetch : String → String → Except String (List α))
    (cik : String) (formTypes : Option (List String)) : List α × List String :=
  scanFormTypes (scrapeCompanyFormType fetch cik) (formTypes.getD ["13D", "13G", "13G/A"])

/-- A Python value as stored in the result dictionaries. -/
inductive PyVal where
  | vnone : PyVal
  | vfloat : Rat → PyVal
  | vint : Nat → PyVal
  | vstr : String → PyVal
  | vbool : Bool → PyVal
deriving DecidableEq, Repr

/-- The dictionary shape of the `_analyze_filing_text` result: the six keys
in creation order with their values. -/
def analysisToDict (a : Analysis) : List (String × PyVal) :=
  [("ownership_percent", a.ownership_percent.elim PyVal.vnone PyVal.vfloat),
   ("shares_owned", a.shares_owned.elim PyVal.vnone PyVal.vint),
   ("purpose", a.purpose.elim PyVal.vnone PyVal.vstr),
   ("investment_intent", a.investment_intent.elim PyVal.vnone PyVal.vstr),
   ("activist_language", PyVal.vbool a.activist_language),
   ("control_intent", PyVal.vbool a.control_intent)]

/-- `SECRealTimeScraper.analyze_filing_content`, parameterized by the
document fetch outcome: on success the analysis dictionary, on any raised
exception the empty dictionary. -/
def analyze_filing_content (fetch : String → Except String String)
    (filingUrl : String) : List (String × PyVal) :=
  match fetch filingUrl with
  | Except.ok body => analysisToDict (analyzeFilingText body)
  | Except.error _ => []

/-- Case-insensitive prefix test matching the acceptance behavior of
`matchLitCI`. -/
def startsCI : List Char → List Char → Bool
  | [], _ => true
  | _ :: _, [] => false
  | l :: ls, c :: cs => c.toLower = l.toLower && startsCI ls cs

/-- Case-insensitive substring occurrence: some suffix of the haystack
starts with the needle. -/
def containsCI (needle : List Char) : List Char → Bool
  | [] => startsCI needle []
  | c :: rest => startsCI needle (c :: rest) || containsCI needle rest

/-- Whether the list starts with a match of `Item\s*4` (case-insensitive),
the marker required by the third purpose heading pattern. -/
def item4Here (cs : List Char) : Bool :=
  startsCI "item".data cs &&
  (match (cs.drop 4).dropWhile isWs with
   | '4' :: _ => true
   | _ => false)

/-- Whether any suffix matches `Item\s*4` (case-insensitive). -/
def hasItem4 : List Char → Bool
  | [] => item4Here []
  | c :: rest => item4Here (c :: rest) || hasItem4 rest

/-- A concrete fetch outcome assignment used to instantiate the
one-failed-fetch theorem: the 13G listing fetch fails, the others succeed. -/
def wfetchBroad : String → Except String (List String) :=
  fun ft => if ft = "13G" then Except.error "connection timeout" else Except.ok [ft]

theorem reSearch_eq_some {att : List Char → Option String} {cs : List Char} {v : String}
    (h : reSearch att cs = some v) : ∃ n, att (cs.drop n) = some v := by
  induction cs with
  | nil => exact ⟨0, h⟩
  | cons c rest ih =>
    simp only [reSearch] at h
    cases hc : att (c :: rest) with
    | some w => rw [hc] at h; exact ⟨0, by simpa using hc.trans h⟩
    | none =>
      rw [hc] at h
      obtain ⟨n, hn⟩ := ih h
      exact ⟨n + 1, by simpa using hn⟩

theorem matchLitCI_eq_some {ls cs : List Char} {k : List Char → Option String} {v : String}
    (h : matchLitCI ls cs k = some v) :
    startsCI ls cs = true ∧ k (cs.drop ls.length) = some v := by
  induction ls generalizing cs with
  | nil => exact ⟨rfl, h⟩
  | cons l ls ih =>
    cases cs with
    | nil => simp [matchLitCI] at h
    | cons c cs =>
      simp only [matchLitCI] at h
      by_cases hc : c.toLower = l.toLower
      · rw [if_pos hc] at h
        obtain ⟨h1, h2⟩ := ih h
        exact ⟨by simp [startsCI, hc, h1], by simpa using h2⟩
      · rw [if_neg hc] at h; exact absurd h (by simp)

theorem matchMany_eq_some {p : Char → Bool} {cs : List Char}
    {k : List Char → Option String} {v : String}
    (h : matchMany p cs k = some v) : ∃ n, k (cs.drop n) = some v := by
  induction cs with
  | nil => exact ⟨0, h⟩
  | cons c rest ih =>
    simp only [matchMany] at h
    by_cases hc : p c
    · rw [if_pos hc] at h
      cases hm : matchMany p rest k with
      | some w =>
        rw [hm] at h
        obtain ⟨n, hn⟩ := ih (hm.trans h)
        exact ⟨n + 1, by simpa using hn⟩
      | none => rw [hm] at h; exact ⟨0, h⟩
    · rw [if_neg hc] at h; exact ⟨0, h⟩

theorem matchChar_eq_some {c : Char} {cs : List Char}
    {k : List Char → Option String} {v : String}
    (h : matchChar c cs k = some v) : ∃ r, cs = c :: r ∧ k r = some v := by
  cases cs with
  | nil => simp [matchChar] at h
  | cons x rest =>
    simp only [matchChar] at h
    by_cases hx : x = c
    · exact ⟨rest, by rw [hx], by rwa [if_pos hx] at h⟩
    · rw [if_neg hx] at h; exact absurd h (by simp)

theorem matchOptChar_eq_some {c : Char} {cs : List Char}
    {k : List Char → Option String} {v : String}
    (h : matchOptChar c cs k = some v) : ∃ n, k (cs.drop n) = some v := by
  cases cs with
  | nil => exact ⟨0, h⟩
  | cons x rest =>
    simp only [matchOptChar] at h
    by_cases hx : x = c
    · rw [if_pos hx] at h
      cases hm : k rest with
      | some w => rw [hm] at h; exact ⟨1, by simpa using hm.trans h⟩
      | none => rw [hm] at h; exact ⟨0, h⟩
    · rw [if_neg hx] at h; exact ⟨0, h⟩

theorem matchPlus_eq_some {p : Char → Bool} {cs : List Char}
    {k : List Char → Option String} {v : String}
    (h : matchPlus p cs k = some v) : ∃ n, k (cs.drop n) = some v := by
  cases cs with
  | nil => simp [matchPlus] at h
  | cons c rest =>
    simp only [matchPlus] at h
    by_cases hc : p c
    · rw [if_pos hc] at h
      obtain ⟨n, hn⟩ := matchMany_eq_some h
      exact ⟨n + 1, by simpa using hn⟩
    · rw [if_neg hc] at h; exact absurd h (by simp)

theorem matchMany_ws_char4 {cs : List Char} {k : List Char → Option String} {v : String}
    (h : matchMany isWs cs (fun r => matchChar '4' r k) = some v) :
    ∃ r, cs.dropWhile isWs = '4' :: r ∧ k r = some v := by
  induction cs with
  | nil => simp [matchMany, matchChar] at h
  | cons c rest ih =>
    simp only [matchMany] at h
    by_cases hc : isWs c
    · rw [if_pos hc] at h
      have hc4 : ¬(c = '4') := by
        intro hcc; rw [hcc] at hc; simp [isWs] at hc
      cases hm : matchMany isWs rest (fun r => matchChar '4' r k) with
      | some w =>
        rw [hm] at h
        obtain ⟨r, hr, hk⟩ := ih (hm.trans h)
        exact ⟨r, by rwa [List.dropWhile_cons_of_pos hc], hk⟩
      | none =>
        rw [hm] at h
        obtain ⟨r, hr, _⟩ := matchChar_eq_some h
        have h14 : c = '4' ∧ rest = r := by simpa using hr
        exact absurd h14.1 hc4
    · rw [if_neg hc] at h
      obtain ⟨r, hr, hk⟩ := matchChar_eq_some h
      exact ⟨r, by rwa [List.dropWhile_cons_of_neg hc], hk⟩

theorem startsCI_containsCI {needle hay : List Char} {n : Nat}
    (h : startsCI needle (hay.drop n) = true) : containsCI needle hay = true := by
  induction hay generalizing n with
  | nil => simpa [containsCI] using h
  | cons c rest ih =>
    cases n with
    | zero => simp only [List.drop_zero] at h; simp [containsCI, h]
    | succ m =>
      simp only [List.drop_succ_cons] at h
      simp [containsCI, ih h]

theorem item4Here_hasItem4 {hay : List Char} {n : Nat}
    (h : item4Here (hay.drop n) = true) : hasItem4 hay = true := by
  induction hay generalizing n with
  | nil => simpa [hasItem4] using h
  | cons c rest ih =>
    cases n with
    | zero => simp only [List.drop_zero] at h; simp [hasItem4, h]
    | succ m =>
      simp only [List.drop_succ_cons] at h
      simp [hasItem4, ih h]

theorem exists_drop_trans {cs t : List Char} (a : Nat) (ht : t = cs.drop a)
    {Q : List Char → Prop} (h : ∃ n, Q (t.drop n)) : ∃ m, Q (cs.drop m) := by
  obtain ⟨n, hn⟩ := h
  refine ⟨a + n, ?_⟩
  rw [ht] at hn
  rwa [List.drop_drop] at hn

theorem attPurpose2_purpose {cs : List Char} {v : String}
    (h : attPurpose2 cs = some v) : startsCI "purpose".data cs = true := by
  unfold attPurpose2 at h
  exact (matchLitCI_eq_some h).1

theorem attPurpose1_purpose {cs : List Char} {v : String}
    (h : attPurpose1 cs = some v) :
    ∃ n, startsCI "purpose".data (cs.drop n) = true := by
  unfold attPurpose1 at h
  obtain ⟨_, h1⟩ := matchLitCI_eq_some h
  obtain ⟨n2, h2⟩ := matchMany_eq_some h1
  obtain ⟨r3, hr3, h3⟩ := matchChar_eq_some h2
  obtain ⟨n4, h4⟩ := matchOptChar_eq_some h3
  obtain ⟨n5, h5⟩ := matchMany_eq_some h4
  obtain ⟨hs, _⟩ := matchLitCI_eq_some h5
  have hD : r3 = ((cs.drop ("item".data.length)).drop n2).drop 1 := by
    rw [hr3]; simp
  exact exists_drop_trans (Q := fun l => startsCI "purpose".data l = true)
    ("item".data.length) rfl
    (exists_drop_trans (Q := fun l => startsCI "purpose".data l = true) n2 rfl
      (exists_drop_trans (Q := fun l => startsCI "purpose".data l = true) 1 hD
        (exists_drop_trans (Q := fun l => startsCI "purpose".data l = true) n4 rfl
          ⟨n5, hs⟩)))

theorem attPurpose3_item4 {cs : List Char} {v : String}
    (h : attPurpose3 cs = some v) : item4Here cs = true := by
  unfold attPurpose3 at h
  obtain ⟨hstart, h1⟩ := matchLitCI_eq_some h
  obtain ⟨r, hr, _⟩ := matchMany_ws_char4 h1
  have h4 : (cs.drop 4).dropWhile isWs = '4' :: r := hr
  simp [item4Here, hstart, h4]

theorem tryTake_eq_some {n : Nat} {p : Char → Bool} {cs t r : List Char}
    (h : tryTake n p cs = some (t, r)) :
    t.length = n ∧ t.all p = true ∧ cs = t ++ r := by
  induction n generalizing cs t r with
  | zero =>
    simp only [tryTake, Option.some.injEq, Prod.mk.injEq] at h
    obtain ⟨h1, h2⟩ := h
    subst h1; subst h2
    simp
  | succ m ih =>
    cases cs with
    | nil => simp [tryTake] at h
    | cons c cs =>
      simp only [tryTake] at h
      by_cases hc : p c
      · rw [if_pos hc] at h
        cases hm : tryTake m p cs with
        | none => rw [hm] at h; exact absurd h (by simp)
        | some tr =>
          obtain ⟨t0, r0⟩ := tr
          rw [hm] at h
          simp only [Option.some.injEq, Prod.mk.injEq] at h
          obtain ⟨h1, h2⟩ := h
          obtain ⟨hl, ha, he⟩ := ih hm
          subst h1; subst h2
          refine ⟨by simp [hl], by simp [List.all_cons, hc, ha], by simp [he]⟩
      · rw [if_neg hc] at h; exact absurd h (by simp)

theorem attAcc_isAccession {cs : List Char} {v : String}
    (h : attAcc cs = some v) : isAccession v = true := by
  unfold attAcc at h
  obtain ⟨r1, hr1, h1⟩ := matchChar_eq_some h
  cases h10 : tryTake 10 Char.isDigit r1 with
  | none => rw [h10] at h1; exact absurd h1 (by simp)
  | some t2 =>
    obtain ⟨d10, r2⟩ := t2
    rw [h10] at h1
    obtain ⟨r3, hr3, h3⟩ := matchChar_eq_some h1
    cases h2t : tryTake 2 Char.isDigit r3 with
    | none => rw [h2t] at h3; exact absurd h3 (by simp)
    | some t4 =>
      obtain ⟨d2, r4⟩ := t4
      rw [h2t] at h3
      obtain ⟨r5, hr5, h5⟩ := matchChar_eq_some h3
      cases h6t : tryTake 6 Char.isDigit r5 with
      | none => rw [h6t] at h5; exact absurd h5 (by simp)
      | some t6 =>
        obtain ⟨d6, r6⟩ := t6
        rw [h6t] at h5
        obtain ⟨r7, hr7, h7⟩ := matchChar_eq_some h5
        have hv : v = String.mk (d10 ++ '-' :: (d2 ++ '-' :: d6)) := by
          simpa using h7.symm
        obtain ⟨hl10, ha10, _⟩ := tryTake_eq_some h10
        obtain ⟨hl2, ha2, _⟩ := tryTake_eq_some h2t
        obtain ⟨hl6, ha6, _⟩ := tryTake_eq_some h6t
        subst hv
        have htake : (d10 ++ '-' :: (d2 ++ '-' :: d6)).take 10 = d10 := by
          rw [← hl10]; exact List.take_left _ _
        have hdrop : (d10 ++ '-' :: (d2 ++ '-' :: d6)).drop 10 = '-' :: (d2 ++ '-' :: d6) := by
          rw [← hl10]; exact List.drop_left _ _
        have htake2 : (d2 ++ '-' :: d6).take 2 = d2 := by
          rw [← hl2]; exact List.take_left _ _
        have hdrop2 : (d2 ++ '-' :: d6).drop 2 = '-' :: d6 := by
          rw [← hl2]; exact List.drop_left _ _
        simp [isAccession, allDigitsLen, htake, hdrop, htake2, hdrop2,
          hl10, hl2, hl6, ha10, ha2, ha6]

theorem analyze_ownership_eq (t : String) :
    (analyzeFilingText t).ownership_percent =
      (match reSearch attPercentSym t.data with
       | some v => some v
       | none => reSearch attPercentWord t.data).map pyFloatOfNumString := by
  unfold analyzeFilingText
  cases hE : extractPurposeSection t with
  | none => simp
  | some p => by_cases hp : p = "" <;> simp [hp]

theorem analyze_no_purpose {t : String} (hE : extractPurposeSection t = none) :
    (analyzeFilingText t).purpose = none ∧
    (analyzeFilingText t).activist_language = false ∧
    (analyzeFilingText t).control_intent = false := by
  unfold analyzeFilingText
  rw [hE]
  exact ⟨rfl, rfl, rfl⟩

theorem pyFloatOfNumString_nonneg (s : String) : 0 ≤ pyFloatOfNumString s := by
  simp only [pyFloatOfNumString]
  split
  · positivity
  · positivity

theorem scanFormTypes_eq {α : Type} (scrape : String → List α × List String)
    (fts : List String) :
    scanFormTypes scrape fts =
      (fts.flatMap (fun ft => (scrape ft).1), fts.flatMap (fun ft => (scrape ft).2)) := by
  suffices h : ∀ a : List α × List String,
      fts.foldl (fun a ft => (a.1 ++ (scrape ft).1, a.2 ++ (scrape ft).2)) a =
        (a.1 ++ fts.flatMap (fun ft => (scrape ft).1),
         a.2 ++ fts.flatMap (fun ft => (scrape ft).2)) by
    simpa [scanFormTypes] using h ([], [])
  intro a
  induction fts generalizing a with
  | nil => simp
  | cons ft fts ih => simp [List.foldl_cons, ih, List.flatMap_cons, List.append_assoc]

theorem scrapeFormType_fst {α : Type} (fetch : String → Except String (List α))
    (ft : String) : (scrapeFormType fetch ft).1 = okFilings (fetch ft) := by
  cases hf : fetch ft <;> simp [scrapeFormType, okFilings, hf]

/-- C5: `ContentExtractor.analyze` is a deterministic pure function of its
input text: identical inputs yield identical `FilingFacts`.  In the
embedding the extractor is a function of the text alone (the source touches
no network, storage or mutable state in `_analyze_filing_text`), so equal
inputs give equal results. -/
theorem C5_analyze_pure (t1 t2 : String) (h : t1 = t2) :
    analyzeFilingText t1 = analyzeFilingText t2 := by rw [h]

theorem C5_witness :
    analyzeFilingText "sample filing text" = analyzeFilingText "sample filing text" :=
  C5_analyze_pure "sample filing text" "sample filing text" rfl

/-- C9: when the document fetch raises, `analyze_filing_content` returns the
empty dictionary, with no keys at all; on a successful fetch it returns the
six-key analysis dictionary, a shape distinct from the empty one. -/
theorem C9_analyze_content_shape (fetch : String → Except String String) (u : String) :
    (∀ e, fetch u = Except.error e → analyze_filing_content fetch u = []) ∧
    (∀ body, fetch u = Except.ok body →
      (analyze_filing_content fetch u).map Prod.fst =
        ["ownership_percent", "shares_owned", "purpose", "investment_intent",
         "activist_language", "control_intent"] ∧
      analyze_filing_content fetch u ≠ []) := by
  constructor
  · intro e he; simp [analyze_filing_content, he]
  · intro body hb
    constructor
    · simp [analyze_filing_content, hb, analysisToDict]
    · simp [analyze_filing_content, hb, analysisToDict]

theorem C9_witness :
    analyze_filing_content (fun _ => Except.error "HTTP 404") "https://example.org/doc" = [] :=
  (C9_analyze_content_shape (fun _ => Except.error "HTTP 404") "https://example.org/doc").1
    "HTTP 404" rfl

/-- C10: with the form-types argument omitted (`none`), both
`get_recent_filings` and `get_company_filings` scan exactly the three form
types 13D, 13G, 13G/A, attempted in that order; the third conjunct unfolds
the broad scan to make the attempt order explicit. -/
theorem C10_default_form_types {α β : Type} (fetch : String → Except String (List α))
    (fetchC : String → String → Except String (List β)) (cik : String) :
    get_recent_filings fetch none = scanFormTypes (scrapeFormType fetch) ["13D", "13G", "13G/A"] ∧
    get_company_filings fetchC cik none =
      scanFormTypes (scrapeCompanyFormType fetchC cik) ["13D", "13G", "13G/A"] ∧
    (get_recent_filings fetch none).1 =
      okFilings (fetch "13D") ++ (okFilings (fetch "13G") ++ okFilings (fetch "13G/A")) := by
  refine ⟨rfl, rfl, ?_⟩
  show (scanFormTypes (scrapeFormType fetch) ["13D", "13G", "13G/A"]).1 = _
  rw [scanFormTypes_eq]
  simp [scrapeFormType_fst]

/-- C1 counterexample: on a text claiming a 150 percent stake, the extractor
stores 150 in the ownership field, a value outside the interval from 0 to
100, so out-of-range matches are not discarded. -/
theorem C1_counterexample :
    (analyzeFilingText "the filer owns 150% of the class").ownership_percent =
      some (150 : Rat) ∧ ¬((150 : Rat) ≤ 100) := by
  constructor
  · have h : (analyzeFilingText "the filer owns 150% of the class").ownership_percent =
        some (pyFloatOfNumString "150") := by rfl
    rw [h]
    have h2 : pyFloatOfNumString "150" = (150 : Rat) := by
      show ((digitsToNat ['1', '5', '0'] : Nat) : Rat) = 150
      have h3 : digitsToNat ['1', '5', '0'] = 150 := by decide
      rw [h3]
      norm_num
    rw [h2]
  · norm_num

/-- C1 amended: the ownership percentage, when present, is always
nonnegative (the numeric pattern only matches unsigned decimals), but no
upper-range check exists: matched values above 100 are stored as-is. -/
theorem C1_amended_ownership_nonneg (t : String) (q : Rat)
    (h : (analyzeFilingText t).ownership_percent = some q) : 0 ≤ q := by
  rw [analyze_ownership_eq] at h
  cases h1 : reSearch attPercentSym t.data with
  | some s =>
    rw [h1] at h
    simp only [Option.map_some', Option.some.injEq] at h
    rw [← h]
    exact pyFloatOfNumString_nonneg s
  | none =>
    rw [h1] at h
    cases h2 : reSearch attPercentWord t.data with
    | some s =>
      rw [h2] at h
      simp only [Option.map_some', Option.some.injEq] at h
      rw [← h]
      exact pyFloatOfNumString_nonneg s
    | none => rw [h2] at h; simp at h

theorem C1_amended_witness : (0 : Rat) ≤ pyFloatOfNumString "150" :=
  C1_amended_ownership_nonneg "the filer owns 150% of the class"
    (pyFloatOfNumString "150") rfl

theorem flatMap_nil_of {β : Type} {l : List String} {f : String → List β}
    (h : ∀ x ∈ l, f x = []) : l.flatMap f = [] := by
  induction l with
  | nil => rfl
  | cons a l ih =>
    simp only [List.flatMap_cons]
    rw [h a (by simp), ih (fun x hx => h x (by simp [hx]))]
    rfl

/-- C3: if exactly one of the requested form types yields a transport
failure, the broad scan still returns the references gathered from the
other form types, in order, and the error list of the run holds exactly one
recorded entry naming the failed form type (the embedding records the
per-form-type error report the source prints). -/
theorem C3_broad_scan_one_failure {α : Type} (fetch : String → Except String (List α))
    (pre post : List String) (ftBad e : String)
    (hbad : fetch ftBad = Except.error e)
    (hok : ∀ ft ∈ pre ++ post, ∃ l, fetch ft = Except.ok l) :
    (get_recent_filings fetch (some (pre ++ ftBad :: post))).1 =
      (pre ++ post).flatMap (fun ft => okFilings (fetch ft)) ∧
    (get_recent_filings fetch (some (pre ++ ftBad :: post))).2 =
      ["Error fetching " ++ ftBad ++ " filings: " ++ e] := by
  have hpre : ∀ ft ∈ pre, (scrapeFormType fetch ft).2 = [] := by
    intro ft hft
    obtain ⟨l, hl⟩ := hok ft (List.mem_append_left _ hft)
    simp [scrapeFormType, hl]
  have hpost : ∀ ft ∈ post, (scrapeFormType fetch ft).2 = [] := by
    intro ft hft
    obtain ⟨l, hl⟩ := hok ft (List.mem_append_right _ hft)
    simp [scrapeFormType, hl]
  have hbad1 : scrapeFormType fetch ftBad =
      ([], ["Error fetching " ++ ftBad ++ " filings: " ++ e]) := by
    simp [scrapeFormType, hbad]
  constructor
  · show (scanFormTypes (scrapeFormType fetch) (pre ++ ftBad :: post)).1 = _
    rw [scanFormTypes_eq]
    simp only [List.flatMap_append, List.flatMap_cons]
    rw [hbad1]
    simp [scrapeFormType_fst]
  · show (scanFormTypes (scrapeFormType fetch) (pre ++ ftBad :: post)).2 = _
    rw [scanFormTypes_eq]
    simp only [List.flatMap_append, List.flatMap_cons]
    rw [hbad1, flatMap_nil_of hpre, flatMap_nil_of hpost]
    simp

theorem C3_witness :
    (get_recent_filings wfetchBroad (some ["13D", "13G", "13G/A"])).1 = ["13D", "13G/A"] ∧
    (get_recent_filings wfetchBroad (some ["13D", "13G", "13G/A"])).2 =
      ["Error fetching 13G filings: connection timeout"] := by
  have h := C3_broad_scan_one_failure wfetchBroad ["13D"] ["13G/A"] "13G"
    "connection timeout" rfl
    (by
      intro ft hft
      fin_cases hft
      · exact ⟨["13D"], rfl⟩
      · exact ⟨["13G/A"], rfl⟩)
  exact ⟨h.1.trans (by decide), h.2.trans rfl⟩

/-- C8: for every tabular-listing row the filing date is taken from cell 3
and parsed by a fallback chain of exactly two formats, ISO year-month-day
first, then month/day/year; a string matching neither format yields an
absent date rather than an error. -/
theorem C8_parse_date_fallback (s : String) (ft cik : String) (cells : List Cell)
    (f : CompanyFiling) :
    ((∀ d, strptimeISO s = some d → parse_date s = some d) ∧
     (strptimeISO s = none → parse_date s = strptimeUS s) ∧
     (strptimeISO s = none → strptimeUS s = none → parse_date s = none)) ∧
    (parseCompanyRow ft cik cells = some f →
      f.filing_date = parse_date (pyStrip (cells.getD 3 ⟨"", none⟩).text)) := by
  refine ⟨⟨?_, ?_, ?_⟩, ?_⟩
  · intro d hd; simp [parse_date, hd]
  · intro h0; simp [parse_date, h0]
  · intro h0 h1; simp [parse_date, h0, h1]
  · intro hrow
    unfold parseCompanyRow at hrow
    by_cases h5 : 5 ≤ cells.length
    · rw [dif_pos h5] at hrow
      simp only [Option.some.injEq] at hrow
      rw [← hrow]
      have hg := List.getD_eq_getElem cells (⟨"", none⟩ : Cell)
        (show 3 < cells.length by omega)
      rw [hg]
      simp [List.get_eq_getElem]
    · rw [dif_neg h5] at hrow
      exact absurd hrow (by simp)

theorem C8_witness :
    parse_date "02/15/2024" = strptimeUS "02/15/2024" ∧ parse_date "Feb 15, 2024" = none := by
  constructor
  · exact ((C8_parse_date_fallback "02/15/2024" "13D" "1" []
      ⟨"13D", "1", none, "x", "y", none, "z"⟩).1.2.1) (by decide)
  · exact ((C8_parse_date_fallback "Feb 15, 2024" "13D" "1" []
      ⟨"13D", "1", none, "x", "y", none, "z"⟩).1.2.2) (by decide) (by decide)

/-- C2 counterexample: the tabular-listing path stores the raw stripped cell
text in the accession field without validating its shape; a row whose
accession cell carries trailing extra text yields a stored accession
that does not match the hyphenated ten/two/six-digit pattern. -/
theorem C2_counterexample :
    (parseCompanyRow "SC 13D" "0000320193"
        [⟨"SC 13D", none⟩,
         ⟨"Documents", some "/Archives/edgar/data/320193/index.htm"⟩,
         ⟨"Statement of acquisition of beneficial ownership", none⟩,
         ⟨"2024-02-09", none⟩,
         ⟨"0000320193-24-000001 (34 Act)", none⟩]).map
      (fun f => (f.accession_number, isAccession f.accession_number)) =
    some ("0000320193-24-000001 (34 Act)", false) := by
  decide

/-- C2 amended: accession identifiers extracted from the syndication-feed
shape always match the hyphenated ten/two/six-digit pattern (the field is
set only from a capture of exactly that shape, and left absent otherwise);
the tabular shape, by contrast, stores the raw cell text unvalidated. -/
theorem C2_feed_accession_wellformed (e : Entry) (ft : String) (a : String)
    (h : (extractFilingData e ft).accession_number = some a) : isAccession a = true := by
  cases hl : e.link with
  | none => simp [extractFilingData, hl] at h
  | some href =>
    by_cases hh : href = ""
    · simp [extractFilingData, hl, hh] at h
    · simp only [extractFilingData, hl] at h
      rw [if_neg hh] at h
      simp only at h
      obtain ⟨n, hn⟩ := reSearch_eq_some h
      exact attAcc_isAccession hn

set_option maxRecDepth 6000 in
theorem C2_witness : isAccession "1234567890-24-000123" = true :=
  C2_feed_accession_wellformed
    ⟨some "Acme Corp - SC 13D", "CIK: 320193", some "2024-02-09T12:00:00Z",
     some "/cgi-bin/browse-edgar/1234567890-24-000123/index.htm"⟩
    "13D" "1234567890-24-000123" (by decide)

set_option maxRecDepth 6000 in
/-- C6: on the scenario text, the extractor returns 1500000 shares (the
grouped pattern captures the comma-grouped number, whose separators are
stripped before conversion) and an ownership percentage of 15.2, each from
the first matching pattern of its ordered candidate list. -/
theorem C6_scenarioB :
    reSearch attSharesGrouped
        "...owns 1,500,000 shares representing 15.2% of the outstanding shares...".data =
      some "1,500,000" ∧
    reSearch attPercentSym
        "...owns 1,500,000 shares representing 15.2% of the outstanding shares...".data =
      some "15.2" ∧
    (analyzeFilingText
        "...owns 1,500,000 shares representing 15.2% of the outstanding shares...").shares_owned =
      some 1500000 ∧
    (analyzeFilingText
        "...owns 1,500,000 shares representing 15.2% of the outstanding shares...").ownership_percent =
      some (15.2 : Rat) := by
  refine ⟨by decide, by decide, by decide, ?_⟩
  have h : (analyzeFilingText
      "...owns 1,500,000 shares representing 15.2% of the outstanding shares...").ownership_percent =
      some (pyFloatOfNumString "15.2") := by rfl
  rw [h]
  have h2 : pyFloatOfNumString "15.2" = (15.2 : Rat) := by
    show ((digitsToNat ['1', '5'] : Nat) : Rat) +
      ((digitsToNat ['2'] : Nat) : Rat) / ((10 : Rat) ^ (['2'].length)) = 15.2
    have e1 : digitsToNat ['1', '5'] = 15 := by decide
    have e2 : digitsToNat ['2'] = 2 := by decide
    rw [e1, e2]
    norm_num
  rw [h2]

set_option maxRecDepth 4000 in
/-- C7 counterexample: a text containing no Purpose heading at all (in any
letter case) but containing an Item 4 marker still gets a purpose excerpt:
the third heading pattern fires without the word Purpose, so the claimed
conclusion purposeExcerpt-absent fails. -/
theorem C7_counterexample :
    containsCI "purpose".data "Item 4. We intend to expand.".data = false ∧
    (analyzeFilingText "Item 4. We intend to expand.").purpose = some "." := by
  refine ⟨by decide, ?_⟩
  have hE : extractPurposeSection "Item 4. We intend to expand." = some "." := by decide
  have hne : ("." : String) ≠ "" := by decide
  have htk : String.mk (List.take 500 ("." : String).data) = "." := by decide
  simp [analyzeFilingText, hE, hne, htk]

/-- C7 amended: for every input text that contains, case-insensitively,
neither the substring purpose nor any occurrence of the word item followed
by optional whitespace and the digit 4, the extractor returns an absent
purpose excerpt and both boolean signals false. -/
theorem C7_amended_no_purpose (t : String)
    (hP : containsCI "purpose".data t.data = false)
    (hI : hasItem4 t.data = false) :
    (analyzeFilingText t).purpose = none ∧
    (analyzeFilingText t).activist_language = false ∧
    (analyzeFilingText t).control_intent = false := by
  have h1 : reSearch attPurpose1 t.data = none := by
    cases hq : reSearch attPurpose1 t.data with
    | none => rfl
    | some v =>
      obtain ⟨n, hn⟩ := reSearch_eq_some hq
      obtain ⟨m, hm⟩ := attPurpose1_purpose hn
      rw [List.drop_drop] at hm
      have hc := startsCI_containsCI hm
      rw [hP] at hc
      simp at hc
  have h2 : reSearch attPurpose2 t.data = none := by
    cases hq : reSearch attPurpose2 t.data with
    | none => rfl
    | some v =>
      obtain ⟨n, hn⟩ := reSearch_eq_some hq
      have hm := attPurpose2_purpose hn
      have hc := startsCI_containsCI hm
      rw [hP] at hc
      simp at hc
  have h3 : reSearch attPurpose3 t.data = none := by
    cases hq : reSearch attPurpose3 t.data with
    | none => rfl
    | some v =>
      obtain ⟨n, hn⟩ := reSearch_eq_some hq
      have hm := attPurpose3_item4 hn
      have hc := item4Here_hasItem4 hm
      rw [hI] at hc
      simp at hc
  have hE : extractPurposeSection t = none := by
    simp [extractPurposeSection, h1, h2, h3]
  exact analyze_no_purpose hE

theorem C7_witness :
    (analyzeFilingText "routine quarterly report").purpose = none ∧
    (analyzeFilingText "routine quarterly report").activist_language = false ∧
    (analyzeFilingText "routine quarterly report").control_intent = false :=
  C7_amended_no_purpose "routine quarterly report" (by decide) (by decide)
